import Mathlib

/-!
# Verification of the file-conversion batching engine

A shallow embedding of `file_converter.py`: the format-policy tables, the
dispatch logic of `FileConverter.convert_file`, the video/GIF pipeline
(`_convert_video`, `_convert_video_to_gif`) with external effects supplied by
an oracle environment, and the debounce scheduler (`add_file`,
`process_batch`) as a discrete-event state machine over millisecond
timestamps.  External subprocess results (ffmpeg/ffprobe) are modelled as
`Except`-valued oracle fields; filesystem writes are recorded as data rather
than performed.
-/

/-- Python `str.lower()` as the code applies it to extensions and format
tokens: per-character lowercasing. -/
def lowerStr (s : String) : String :=
  ⟨s.data.map Char.toLower⟩

/-- Python slicing `s[1:]` (used as `suffix.lower()[1:]` to strip the dot;
yields the empty string on the empty string, as in Python). -/
def dropFirst (s : String) : String :=
  ⟨s.data.drop 1⟩

/-- A filesystem path in the pathlib view used by the code: a stem plus a
suffix that includes its leading dot (`Path("photo.png").suffix = ".png"`,
`Path.with_suffix` replaces it). -/
structure FsPath where
  stem : String
  suffix : String
deriving DecidableEq

/-- `Path.with_suffix(new)`: same stem, new suffix (dot included). -/
def FsPath.with_suffix (p : FsPath) (suf : String) : FsPath :=
  ⟨p.stem, suf⟩

/-- Rendering of a path as a plain string (stem followed by suffix). -/
def FsPath.render (p : FsPath) : String :=
  p.stem ++ p.suffix

/-- `self.image_formats` from `FileConverter.__init__`. -/
def image_formats : List String :=
  [".jpg", ".jpeg", ".png", ".bmp", ".gif", ".webp", ".tiff", ".ico"]

/-- `self.audio_formats`. -/
def audio_formats : List String :=
  [".mp3", ".wav", ".ogg", ".m4a", ".flac", ".aac"]

/-- `self.video_formats`. -/
def video_formats : List String :=
  [".mp4", ".avi", ".mkv", ".mov", ".wmv", ".flv", ".webm"]

/-- `self.supported_formats = image | audio | video`. -/
def supported_formats : List String :=
  image_formats ++ audio_formats ++ video_formats

/-- `self.image_format_mapping`: lowercase format id → PIL container name. -/
def image_format_mapping : List (String × String) :=
  [("jpg", "JPEG"), ("jpeg", "JPEG"), ("png", "PNG"), ("bmp", "BMP"),
   ("gif", "GIF"), ("webp", "WEBP"), ("tiff", "TIFF"), ("ico", "ICO")]

/-- `self.audio_format_mapping`. -/
def audio_format_mapping : List (String × String) :=
  [("mp3", "mp3"), ("wav", "wav"), ("ogg", "ogg"), ("m4a", "m4a"),
   ("flac", "flac"), ("aac", "aac")]

/-- `self.video_format_mapping` (note `gif` is a member). -/
def video_format_mapping : List (String × String) :=
  [("mp4", "mp4"), ("avi", "avi"), ("mkv", "mkv"), ("mov", "mov"),
   ("wmv", "wmv"), ("flv", "flv"), ("webm", "webm"), ("gif", "gif")]

/-- `self.default_format = 'png'` (image-class default). -/
def default_format : String := "png"

/-- `self.default_audio_format = 'mp3'`. -/
def default_audio_format : String := "mp3"

/-- `self.default_video_format = 'mp4'`. -/
def default_video_format : String := "mp4"

/-- The three media classes distinguished by `convert_file`'s branch chain. -/
inductive MediaClass where
  | image
  | audio
  | video
deriving DecidableEq

/-- The extension-membership chain `file_path.suffix.lower() in self.image_formats`
/ `audio_formats` / `video_formats` as it appears, in order, in `convert_file`. -/
def classify (p : FsPath) : Option MediaClass :=
  if lowerStr p.suffix ∈ image_formats then some .image
  else if lowerStr p.suffix ∈ audio_formats then some .audio
  else if lowerStr p.suffix ∈ video_formats then some .video
  else none

/-- The class's format-mapping table used by the validation step. -/
def format_mapping : MediaClass → List (String × String)
  | .image => image_format_mapping
  | .audio => audio_format_mapping
  | .video => video_format_mapping

/-- The keys of a mapping table (dict membership tests keys). -/
def mapping_keys (c : MediaClass) : List String :=
  (format_mapping c).map Prod.fst

/-- The `if not output_format:` default-filling step of `convert_file`
(lines 278-284): both `None` and the empty string are falsy and trigger
default selection, but when the extension belongs to no class there is no
`else` and the variable keeps its original falsy value — `None` stays
`None` and `""` stays `""` (they fail differently afterwards: `None.lower()`
raises `AttributeError`, while `"".lower()` succeeds and the call then dies
in `with_suffix('.')` with `ValueError`). -/
def fill_default_format (p : FsPath) (output_format : Option String) :
    Option String :=
  if output_format = none ∨ output_format = some "" then
    if lowerStr p.suffix ∈ image_formats then some default_format
    else if lowerStr p.suffix ∈ audio_formats then some default_audio_format
    else if lowerStr p.suffix ∈ video_formats then some default_video_format
    else output_format
  else output_format

/-- The output format that survives to the same-format comparison at line
289: the default-filled value when it is a usable (non-empty) token, and
`none` when the call raises before reaching that comparison — either
`AttributeError` on `None.lower()` (line 286) or `ValueError` from
`with_suffix('.')` on an empty format (line 287).  Class defaults and
explicit non-empty tokens are non-empty, so `some ""` never survives. -/
def resolve_output_format (p : FsPath) (output_format : Option String) :
    Option String :=
  match fill_default_format p output_format with
  | none => none
  | some s => if s = "" then none else some s

/-- Observable outcome of one `convert_file` call.  `dispatched` records that
control reached a class strategy (`_convert_image` / `_convert_audio` /
`_convert_video`) with the computed output path and format; the error
constructors record which exception fired: `attributeError` is
`None.lower()` at line 286, `invalidSuffixError` is the `ValueError` raised
by `Path.with_suffix('.')` at line 287 when the format is the empty
string. -/
inductive ConvertOutcome where
  | skippedSameFormat
  | dispatched (c : MediaClass) (outputPath : FsPath) (fmt : String)
  | unsupportedOutputFormat (c : MediaClass) (fmt : String)
  | unsupportedInputFormat (fmt : String)
  | attributeError
  | invalidSuffixError
deriving DecidableEq

/-- `FileConverter.convert_file` up to the strategy dispatch, in program
order: input-format derivation, default filling, `.lower()` (raising
`AttributeError` on a still-`None` format), `with_suffix` (raising
`ValueError` on the invalid suffix `"."` when the format is empty), the
same-format skip, per-class output-format validation, and the final
unsupported-input raise. -/
def convert_file (p : FsPath) (output_format : Option String) : ConvertOutcome :=
  let input_format := dropFirst (lowerStr p.suffix)
  match fill_default_format p output_format with
  | none => .attributeError
  | some f =>
    let fmt := lowerStr f
    if fmt = "" then .invalidSuffixError
    else
    let output_path := p.with_suffix ("." ++ fmt)
    if input_format = fmt then .skippedSameFormat
    else if lowerStr p.suffix ∈ image_formats then
      if fmt ∈ mapping_keys .image then .dispatched .image output_path fmt
      else .unsupportedOutputFormat .image fmt
    else if lowerStr p.suffix ∈ audio_formats then
      if fmt ∈ mapping_keys .audio then .dispatched .audio output_path fmt
      else .unsupportedOutputFormat .audio fmt
    else if lowerStr p.suffix ∈ video_formats then
      if fmt ∈ mapping_keys .video then .dispatched .video output_path fmt
      else .unsupportedOutputFormat .video fmt
    else .unsupportedInputFormat input_format

/-- True exactly when an outcome dispatched to a conversion strategy (the only
way any file write or external invocation can happen). -/
def dispatchesStrategy : ConvertOutcome → Bool
  | .dispatched _ _ _ => true
  | _ => false

/-- The files an outcome writes: only a dispatched conversion targets its
output path; skips and errors touch nothing. -/
def filesWritten : ConvertOutcome → List FsPath
  | .dispatched _ q _ => [q]
  | _ => []

/-! ## Video conversion and the GIF two-pass pipeline -/

/-- `max_gif_duration` default of the `FileConverter` constructor (seconds). -/
def constructor_max_gif_duration : ℚ := 30

/-- `--max-gif-duration` default of the CLI argument parser (seconds). -/
def cli_max_gif_duration : ℚ := 15

/-- `batch_wait_time` default of the `FileConverter` constructor (seconds):
`0.1`, i.e. 100 milliseconds. -/
def constructor_batch_wait_time : ℚ := 1 / 10

/-- One call to `run_ffmpeg_command`: the input path, the output path, and the
extra arguments inserted between them (the fixed `-y -loglevel error
-hide_banner` tail is common to every call and not repeated here). -/
structure Invocation where
  input : String
  output : String
  extraArgs : List String
deriving DecidableEq

/-- Oracle for the external world of one `_convert_video` call: the scoped
temporary directory name the `tempfile` module would allocate, the ffprobe
duration result (`_get_video_duration` re-raises its failures), and the
success or stderr text of each potential ffmpeg run. -/
structure VideoEnv where
  tempDir : String
  probe : Except String ℚ
  paletteRun : Except String Unit
  renderRun : Except String Unit
  plainRun : Except String Unit

/-- The errors `_convert_video` can raise. -/
inductive VideoError where
  | probeFailed (msg : String)
  | durationExceeded (actual maxDuration : ℚ)
  | toolFailure (msg : String)
deriving DecidableEq

/-- Result of a `_convert_video` / `_convert_video_to_gif` call: the raised
error if any, the ffmpeg invocations actually issued in order, and whether
every scoped temporary directory created during the call was released. -/
structure VideoRun where
  result : Except VideoError Unit
  invocations : List Invocation
  tempReleased : Bool

/-- The palette-pass filter of `_convert_video_to_gif`. -/
def palette_filter : String := "fps=10,scale=480:-1:flags=lanczos,palettegen"

/-- The render-pass filter of `_convert_video_to_gif`. -/
def render_filter : String := "fps=10,scale=480:-1:flags=lanczos[x];[x][1:v]paletteuse"

/-- The palette-pass invocation: source in, `palette.png` inside the scoped
temporary directory out. -/
def palette_invocation (env : VideoEnv) (input : FsPath) : Invocation :=
  ⟨input.render, env.tempDir ++ "/palette.png", ["-vf", palette_filter]⟩

/-- The render-pass invocation: source in (with the palette as second input),
final GIF out. -/
def render_invocation (env : VideoEnv) (input output : FsPath) : Invocation :=
  ⟨input.render, output.render,
   ["-i", env.tempDir ++ "/palette.png", "-filter_complex", render_filter]⟩

/-- `FileConverter._convert_video_to_gif`: the `with TemporaryDirectory()`
block makes `tempReleased` true on every exit path; the palette pass runs
first, and the render pass only if the palette pass succeeded; a failing run
raises out of the `with` block. -/
def convert_video_to_gif (env : VideoEnv) (input output : FsPath) : VideoRun :=
  match env.paletteRun with
  | .error e =>
    ⟨.error (.toolFailure e), [palette_invocation env input], true⟩
  | .ok _ =>
    match env.renderRun with
    | .error e =>
      ⟨.error (.toolFailure e),
       [palette_invocation env input, render_invocation env input output], true⟩
    | .ok _ =>
      ⟨.ok (),
       [palette_invocation env input, render_invocation env input output], true⟩

/-- The extra codec arguments `_convert_video` selects for non-GIF targets. -/
def video_extra_args (output_format : String) : List String :=
  if output_format = "mp4" ∨ output_format = "mov" then
    ["-c:v", "libx264", "-c:a", "aac", "-preset", "medium", "-crf", "23"]
  else if output_format = "webm" then
    ["-c:v", "libvpx-vp9", "-c:a", "libopus", "-crf", "30", "-b:v", "0"]
  else []

/-- `FileConverter._convert_video`: for `gif`, probe the duration, reject with
the actual and maximum values when `duration > max_gif_duration`, otherwise
run the two-pass pipeline; for every other format a single ffmpeg run with
the selected codec arguments.  No temporary directory exists outside
`_convert_video_to_gif`, so `tempReleased` is vacuously true on the paths
that never create one. -/
def convert_video (env : VideoEnv) (max_gif_duration : ℚ)
    (input output : FsPath) (output_format : String) : VideoRun :=
  if output_format = "gif" then
    match env.probe with
    | .error e => ⟨.error (.probeFailed e), [], true⟩
    | .ok duration =>
      if max_gif_duration < duration then
        ⟨.error (.durationExceeded duration max_gif_duration), [], true⟩
      else convert_video_to_gif env input output
  else
    match env.plainRun with
    | .error e =>
      ⟨.error (.toolFailure e),
       [⟨input.render, output.render, video_extra_args output_format⟩], true⟩
    | .ok _ =>
      ⟨.ok (),
       [⟨input.render, output.render, video_extra_args output_format⟩], true⟩

/-! ## The debounce scheduler

`add_file` and the `threading.Timer` debounce are modelled as a
discrete-event machine.  Time is a natural-number timestamp (think
milliseconds).  The state carries `pending_files` (a finite set, matching the
Python `set` of `(path, output_format)` pairs), the deadline of the currently
armed timer if any, and the list of batches fired so far.  An enqueue event at
time `t` first lets an armed timer whose deadline has already passed fire
(`process_batch`), then performs `add_file`, which — exactly as in the code —
cancels any armed timer and arms a fresh one `delay` after `t`. -/

/-- A pending conversion request: `(file_path, output_format)`. -/
abbrev Request := FsPath × Option String

/-- The extension test `file_path.suffix.lower() in self.supported_formats`
guarding `add_file`. -/
def recognized (r : Request) : Prop :=
  lowerStr r.1.suffix ∈ supported_formats

instance (r : Request) : Decidable (recognized r) := by
  unfold recognized
  infer_instance

/-- Scheduler state: `pending_files`, the armed timer deadline, and the
batches fired so far (each the snapshot `process_batch` captured). -/
structure SchedState where
  pending : Finset Request
  deadline : Option ℕ
  fired : List (Finset Request)
deriving DecidableEq

/-- The initial state of a fresh `FileConverter`. -/
def initState : SchedState :=
  ⟨∅, none, []⟩

/-- Fire the armed timer if its deadline is at or before `now`:
`process_batch` returns at once on an empty pending set, otherwise it snapshots
and clears `pending_files` and records the processed batch. -/
def fireDue (s : SchedState) (now : ℕ) : SchedState :=
  match s.deadline with
  | none => s
  | some d =>
    if d ≤ now then
      if s.pending = ∅ then ⟨s.pending, none, s.fired⟩
      else ⟨∅, none, s.fired ++ [s.pending]⟩
    else s

/-- `FileConverter.add_file` at time `now`: with a recognized extension the
pair is inserted into `pending_files` (set semantics) and the timer is
cancelled and re-armed to fire `delay` after `now`; otherwise the call only
logs a warning and changes nothing. -/
def add_file (delay : ℕ) (s : SchedState) (now : ℕ) (r : Request) : SchedState :=
  if recognized r then
    ⟨insert r s.pending, some (now + delay), s.fired⟩
  else s

/-- One timestamped enqueue event: the due timer (if any) fires first, then
`add_file` runs. -/
def stepEvent (delay : ℕ) (s : SchedState) (e : ℕ × Request) : SchedState :=
  add_file delay (fireDue s e.1) e.1 e.2

/-- Run a timestamped event trace from a starting state. -/
def runEvents (delay : ℕ) (s : SchedState) (events : List (ℕ × Request)) :
    SchedState :=
  events.foldl (stepEvent delay) s

/-- Let an armed timer expire after the last event (its deadline always
arrives once no further enqueue cancels it). -/
def flush (s : SchedState) : SchedState :=
  match s.deadline with
  | none => s
  | some d => fireDue s d

/-- The complete observable batching behaviour of a trace: the batches fired,
in order, once the trace ends and the final timer expires. -/
def batches (delay : ℕ) (events : List (ℕ × Request)) : List (Finset Request) :=
  (flush (runEvents delay initState events)).fired

/-! ## The processing pass of `process_batch`

The loop body of `process_batch` is `try: convert_file(...) except: count it`.
`convert_file` is modelled here as an arbitrary `Except`-valued function
supplied by the caller, standing for the full conversion (dispatch plus
external effects), since the `except Exception` boundary catches whatever it
raises. -/

/-- Whether an attempted conversion succeeded (no exception raised). -/
def exceptOk : Except String Unit → Bool
  | .ok _ => true
  | .error _ => false

/-- One pass over a captured batch: each item is attempted in order and its
outcome recorded; a raised error never escapes the loop body. -/
def process_pass (conv : Request → Except String Unit) (files : List Request) :
    List (Request × Bool) :=
  files.map (fun r => (r, exceptOk (conv r)))

/-- The `success_count` / `fail_count` accumulation of `process_batch`,
folded exactly as the loop does. -/
def batch_counts (conv : Request → Except String Unit) (files : List Request) :
    ℕ × ℕ :=
  files.foldl
    (fun acc r =>
      match conv r with
      | .ok _ => (acc.1 + 1, acc.2)
      | .error _ => (acc.1, acc.2 + 1))
    (0, 0)

/-! ## The lock discipline of `process_batch`

The body of `process_batch` is one `with self.processing_lock:` block: the
lock is acquired, the pending set is copied and cleared, every captured item
is converted, and only then is the lock released.  The trace below records
those steps in program order, together with the pending set left behind.  The
captured batch is modelled as the list the copied set iterates over. -/

/-- The observable steps of one `process_batch` call. -/
inductive LockEvent where
  | acquire
  | release
  | snapshot (batch : List Request)
  | processItem (r : Request)
deriving DecidableEq

/-- `FileConverter.process_batch` as a trace of lock and processing steps,
paired with the pending set it leaves behind: acquire; if nothing is pending,
release and return; otherwise copy-and-clear (`snapshot`), convert every
captured item, then release. -/
def process_batch_trace (pending : List Request) :
    List LockEvent × List Request :=
  if pending = [] then ([.acquire, .release], pending)
  else
    ([.acquire, .snapshot pending] ++ pending.map LockEvent.processItem ++
      [.release], [])

/-- True when the first release in the trace comes before the first processed
item — the "release the lock before processing" discipline. -/
def releasedBeforeProcessing : List LockEvent → Bool
  | [] => true
  | .release :: _ => true
  | .processItem _ :: _ => false
  | _ :: rest => releasedBeforeProcessing rest

/-- Scan a trace with a lock-held flag, checking that every processed item
occurs while the lock is held. -/
def heldDuring : Bool → List LockEvent → Bool
  | _, [] => true
  | _, .acquire :: rest => heldDuring true rest
  | _, .release :: rest => heldDuring false rest
  | held, .snapshot _ :: rest => heldDuring held rest
  | held, .processItem _ :: rest => held && heldDuring held rest

/-- Every item in the trace is processed under the lock (starting unlocked). -/
def processedUnderLock (tr : List LockEvent) : Bool :=
  heldDuring false tr

/-- A concrete batch of three requests, used to exercise the aggregate-count
behaviour of a processing pass. -/
def sample_items : List Request :=
  [(⟨"a", ".png"⟩, none), (⟨"b", ".mp4"⟩, some "gif"), (⟨"c", ".mp3"⟩, none)]

/-- A conversion oracle under which exactly the middle item of
`sample_items` raises. -/
def sample_conv : Request → Except String Unit :=
  fun r => if r.1.stem = "b" then .error "ExternalToolFailure" else .ok ()

/-! ## Claim theorems -/

/-- C3 counterexample: enqueueing `photo.png` with no explicit format does
NOT produce a new file — the resolved default image format is `png`, which
equals the input format, so `convert_file` takes the same-format skip branch
and never dispatches to the image strategy. -/
theorem C3_counterexample :
    convert_file ⟨"photo", ".png"⟩ none = .skippedSameFormat ∧
    dispatchesStrategy (convert_file ⟨"photo", ".png"⟩ none) = false ∧
    filesWritten (convert_file ⟨"photo", ".png"⟩ none) = [] := by
  decide

/-- C3 (amended): enqueueing `photo.png` with no explicit format selects the
image class's configured default format `png`; since the input format equals
it, conversion is skipped (`SkippedSameFormat`): `photo.png` is untouched and
no new file is produced. -/
theorem C3_default_format_scenario :
    resolve_output_format ⟨"photo", ".png"⟩ none = some default_format ∧
    default_format = "png" ∧
    convert_file ⟨"photo", ".png"⟩ none = .skippedSameFormat ∧
    filesWritten (convert_file ⟨"photo", ".png"⟩ none) = [] := by
  decide

/-- Lowercasing a string is empty exactly when the string is empty
(`lowerStr` maps character lists pointwise). -/
theorem lowerStr_eq_empty_iff (s : String) : lowerStr s = "" ↔ s = "" := by
  cases s with
  | mk data =>
    cases data with
    | nil => exact ⟨fun _ => rfl, fun _ => rfl⟩
    | cons c cs =>
      constructor <;> intro h <;>
        exact absurd (congrArg String.data h) (by simp [lowerStr])

/-- A format that survives format resolution came from the default-filling
step and is non-empty. -/
theorem resolve_eq_some (p : FsPath) (o : Option String) (f : String)
    (h : resolve_output_format p o = some f) :
    fill_default_format p o = some f ∧ f ≠ "" := by
  cases hfd : fill_default_format p o with
  | none =>
    simp only [resolve_output_format, hfd] at h
    exact absurd h (by simp)
  | some s =>
    simp only [resolve_output_format, hfd] at h
    by_cases hs : s = ""
    · rw [if_pos hs] at h
      exact absurd h (by simp)
    · rw [if_neg hs] at h
      obtain rfl : s = f := by injection h
      exact ⟨rfl, hs⟩

/-- C7: whenever the input format (the lowercased source extension without
its dot) equals the resolved output format (lowercased), `convert_file`
returns the same-format skip outcome without dispatching to any strategy and
without touching any file. -/
theorem C7_same_format_skip (p : FsPath) (o : Option String) (f : String)
    (hres : resolve_output_format p o = some f)
    (heq : dropFirst (lowerStr p.suffix) = lowerStr f) :
    convert_file p o = .skippedSameFormat ∧
    dispatchesStrategy (convert_file p o) = false ∧
    filesWritten (convert_file p o) = [] := by
  obtain ⟨hfd, hf⟩ := resolve_eq_some p o f hres
  have hlf : lowerStr f ≠ "" := fun hh => hf ((lowerStr_eq_empty_iff f).mp hh)
  have h : convert_file p o = .skippedSameFormat := by
    simp [convert_file, hfd, hlf, heq]
  exact ⟨h, by rw [h]; rfl, by rw [h]; rfl⟩

/-- C7 witness: `track.MP3` with requested format `mp3` is skipped. -/
theorem C7_same_format_skip_witness :
    resolve_output_format ⟨"track", ".MP3"⟩ (some "mp3") = some "mp3" ∧
    dropFirst (lowerStr ".MP3") = lowerStr "mp3" ∧
    convert_file ⟨"track", ".MP3"⟩ (some "mp3") = .skippedSameFormat := by
  refine ⟨by decide, by decide, ?_⟩
  exact (C7_same_format_skip ⟨"track", ".MP3"⟩ (some "mp3") "mp3"
    (by decide) (by decide)).1

/-- C4: when the target is `gif` and the probed duration strictly exceeds the
configured maximum, `_convert_video` fails with the duration-exceeded error
carrying the actual duration and the maximum, and issues no ffmpeg
invocation at all (so no output file is created or partially written); the
maximum defaults to 15 seconds via the CLI flag and 30 seconds as the
`FileConverter` constructor default. -/
theorem C4_gif_duration_policy (env : VideoEnv) (maxd d : ℚ)
    (input output : FsPath)
    (hprobe : env.probe = .ok d) (hgt : maxd < d) :
    convert_video env maxd input output "gif" =
      ⟨.error (.durationExceeded d maxd), [], true⟩ ∧
    cli_max_gif_duration = 15 ∧
    constructor_max_gif_duration = 30 := by
  refine ⟨?_, rfl, rfl⟩
  simp [convert_video, hprobe, hgt]

/-- C4 witness: a 20-second clip against a 15-second maximum is rejected with
both values, with no ffmpeg invocation. -/
theorem C4_gif_duration_policy_witness :
    convert_video ⟨"T", .ok 20, .ok (), .ok (), .ok ()⟩ 15
      ⟨"clip", ".mov"⟩ ⟨"clip", ".gif"⟩ "gif" =
      ⟨.error (.durationExceeded 20 15), [], true⟩ :=
  (C4_gif_duration_policy ⟨"T", .ok 20, .ok (), .ok (), .ok ()⟩ 15 20
    ⟨"clip", ".mov"⟩ ⟨"clip", ".gif"⟩ rfl (by norm_num)).1

/-- C8: for a `gif` target whose probed duration is within the maximum and
whose two ffmpeg passes succeed, `_convert_video` performs exactly two
invocations in order — the palette pass (`-vf
fps=10,scale=480:-1:flags=lanczos,palettegen` writing `palette.png` inside
the scoped temporary directory) and then the render pass (same rate/scale,
applying that palette to write the final GIF) — and the scoped temporary
directory is released on every exit path of `_convert_video_to_gif`,
whatever either pass returns. -/
theorem C8_gif_two_pass (env : VideoEnv) (maxd d : ℚ) (input output : FsPath)
    (hprobe : env.probe = .ok d) (hle : d ≤ maxd)
    (hp : env.paletteRun = .ok ()) (hr : env.renderRun = .ok ()) :
    convert_video env maxd input output "gif" =
      ⟨.ok (), [palette_invocation env input,
                render_invocation env input output], true⟩ ∧
    palette_invocation env input =
      ⟨input.render, env.tempDir ++ "/palette.png",
       ["-vf", "fps=10,scale=480:-1:flags=lanczos,palettegen"]⟩ ∧
    render_invocation env input output =
      ⟨input.render, output.render,
       ["-i", env.tempDir ++ "/palette.png", "-filter_complex",
        "fps=10,scale=480:-1:flags=lanczos[x];[x][1:v]paletteuse"]⟩ ∧
    (∀ (env2 : VideoEnv) (i2 o2 : FsPath),
      (convert_video_to_gif env2 i2 o2).tempReleased = true) := by
  refine ⟨?_, rfl, rfl, ?_⟩
  · simp [convert_video, hprobe, not_lt.mpr hle, convert_video_to_gif, hp, hr]
  · intro env2 i2 o2
    cases h2 : env2.paletteRun with
    | error e => simp [convert_video_to_gif, h2]
    | ok u =>
      cases h3 : env2.renderRun with
      | error e => simp [convert_video_to_gif, h2, h3]
      | ok v => simp [convert_video_to_gif, h2, h3]

/-- C8 witness: a 10-second `clip.mov` against a 15-second maximum runs the
palette pass and then the render pass, producing `clip.gif`. -/
theorem C8_gif_two_pass_witness :
    convert_video ⟨"T", .ok 10, .ok (), .ok (), .ok ()⟩ 15
      ⟨"clip", ".mov"⟩ ⟨"clip", ".gif"⟩ "gif" =
      ⟨.ok (), [⟨"clip.mov", "T/palette.png",
                 ["-vf", "fps=10,scale=480:-1:flags=lanczos,palettegen"]⟩,
                ⟨"clip.mov", "clip.gif",
                 ["-i", "T/palette.png", "-filter_complex",
                  "fps=10,scale=480:-1:flags=lanczos[x];[x][1:v]paletteuse"]⟩],
       true⟩ := by
  have h := C8_gif_two_pass ⟨"T", .ok 10, .ok (), .ok (), .ok ()⟩ 15 10
    ⟨"clip", ".mov"⟩ ⟨"clip", ".gif"⟩ rfl (by norm_num) rfl rfl
  rw [h.1]
  rfl

/-- C9: when the resolved output format (lowercased) differs from the input
format and is not a key of the media class's format-mapping table,
`convert_file` raises the unsupported-output-format error before dispatching
to any strategy, so no external transcoder invocation and no file write can
occur. -/
theorem C9_unsupported_output (p : FsPath) (o : Option String) (f : String)
    (c : MediaClass)
    (hres : resolve_output_format p o = some f)
    (hcls : classify p = some c)
    (hne : dropFirst (lowerStr p.suffix) ≠ lowerStr f)
    (hmem : lowerStr f ∉ mapping_keys c) :
    convert_file p o = .unsupportedOutputFormat c (lowerStr f) ∧
    dispatchesStrategy (convert_file p o) = false ∧
    filesWritten (convert_file p o) = [] := by
  obtain ⟨hfd, hf⟩ := resolve_eq_some p o f hres
  have hlf : lowerStr f ≠ "" := fun hh => hf ((lowerStr_eq_empty_iff f).mp hh)
  have h : convert_file p o = .unsupportedOutputFormat c (lowerStr f) := by
    by_cases h1 : lowerStr p.suffix ∈ image_formats
    · have hc : c = .image := by simpa [classify, h1] using hcls.symm
      subst hc
      simp [convert_file, hfd, hlf, hne, h1, hmem]
    · by_cases h2 : lowerStr p.suffix ∈ audio_formats
      · have hc : c = .audio := by simpa [classify, h1, h2] using hcls.symm
        subst hc
        simp [convert_file, hfd, hlf, hne, h1, h2, hmem]
      · by_cases h3 : lowerStr p.suffix ∈ video_formats
        · have hc : c = .video := by simpa [classify, h1, h2, h3] using hcls.symm
          subst hc
          simp [convert_file, hfd, hlf, hne, h1, h2, h3, hmem]
        · simp [classify, h1, h2, h3] at hcls
  exact ⟨h, by rw [h]; rfl, by rw [h]; rfl⟩

/-- C9 witness: requesting format `xyz` for the audio source `song.mp3`
yields the unsupported-output error with no dispatch. -/
theorem C9_unsupported_output_witness :
    convert_file ⟨"song", ".mp3"⟩ (some "xyz") =
      .unsupportedOutputFormat .audio "xyz" ∧
    dispatchesStrategy (convert_file ⟨"song", ".mp3"⟩ (some "xyz")) = false :=
  ⟨(C9_unsupported_output ⟨"song", ".mp3"⟩ (some "xyz") "xyz" .audio
      (by decide) (by decide) (by decide) (by decide)).1,
   (C9_unsupported_output ⟨"song", ".mp3"⟩ (some "xyz") "xyz" .audio
      (by decide) (by decide) (by decide) (by decide)).2.1⟩

/-- The counter fold of `process_batch` with an arbitrary starting
accumulator adds the number of succeeding and failing items. -/
theorem batch_counts_fold (conv : Request → Except String Unit) :
    ∀ (files : List Request) (a b : ℕ),
    files.foldl
      (fun acc r =>
        match conv r with
        | .ok _ => (acc.1 + 1, acc.2)
        | .error _ => (acc.1, acc.2 + 1))
      (a, b) =
      (a + files.countP (fun r => exceptOk (conv r)),
       b + files.countP (fun r => !exceptOk (conv r))) := by
  intro files
  induction files with
  | nil => intro a b; simp
  | cons x xs ih =>
    intro a b
    simp only [List.foldl_cons]
    cases hx : conv x with
    | ok u =>
      rw [ih]
      simp [List.countP_cons, hx, exceptOk]
      omega
    | error e =>
      rw [ih]
      simp [List.countP_cons, hx, exceptOk]
      omega

/-- C5: a processing pass attempts every captured item regardless of
failures among them (the map of attempted items is the batch itself); the
aggregate counters are exactly the number of succeeding and the number of
failing items, and they always sum to the batch size; in particular a batch
of three in which exactly the middle item raises reports 2 successes and 1
failure. -/
theorem C5_failure_isolation (conv : Request → Except String Unit)
    (files : List Request) :
    (process_pass conv files).map Prod.fst = files ∧
    batch_counts conv files =
      (files.countP (fun r => exceptOk (conv r)),
       files.countP (fun r => !exceptOk (conv r))) ∧
    files.countP (fun r => exceptOk (conv r)) +
      files.countP (fun r => !exceptOk (conv r)) = files.length ∧
    (∀ a b c : Request,
      exceptOk (conv a) = true → exceptOk (conv b) = false →
      exceptOk (conv c) = true → batch_counts conv [a, b, c] = (2, 1)) := by
  refine ⟨?_, ?_, ?_, ?_⟩
  · induction files with
    | nil => rfl
    | cons x xs ih => simpa [process_pass] using ih
  · simpa using batch_counts_fold conv files 0 0
  · induction files with
    | nil => simp
    | cons x xs ih =>
      simp only [List.countP_cons, List.length_cons]
      cases hx : exceptOk (conv x) <;> simp [hx] <;> omega
  · intro a b c ha hb hc
    have ha2 : conv a = .ok () := by
      cases h : conv a with
      | ok u => cases u; rfl
      | error e => rw [h] at ha; simp [exceptOk] at ha
    have hb2 : ∃ e, conv b = .error e := by
      cases h : conv b with
      | ok u => rw [h] at hb; simp [exceptOk] at hb
      | error e => exact ⟨e, rfl⟩
    have hc2 : conv c = .ok () := by
      cases h : conv c with
      | ok u => cases u; rfl
      | error e => rw [h] at hc; simp [exceptOk] at hc
    obtain ⟨e, hb2⟩ := hb2
    simp [batch_counts, ha2, hb2, hc2]

/-- C5 witness: under `sample_conv`, the three-item batch `sample_items` is
attempted in full and reports 2 successes and 1 failure. -/
theorem C5_failure_isolation_witness :
    (process_pass sample_conv sample_items).map Prod.fst = sample_items ∧
    batch_counts sample_conv sample_items = (2, 1) := by
  refine ⟨(C5_failure_isolation sample_conv sample_items).1, ?_⟩
  exact (C5_failure_isolation sample_conv sample_items).2.2.2
    sample_items[0] sample_items[1] sample_items[2] (by decide) (by decide)
    (by decide)

/-- C6: pending requests are identified by the `(path, format)` pair:
enqueueing the identical pair twice inside one quiet window leaves exactly
one pending entry and the fired batch processes exactly that one item, while
the same path with two different requested formats leaves two distinct
pending entries. -/
theorem C6_dedup (delay t1 t2 : ℕ) (p : FsPath) (f1 f2 : Option String)
    (hrec : recognized (p, f1)) (hrec2 : recognized (p, f2))
    (h12 : t1 < t2) (hq : t2 < t1 + delay) :
    batches delay [(t1, (p, f1)), (t2, (p, f1))] = [{(p, f1)}] ∧
    (runEvents delay initState [(t1, (p, f1)), (t2, (p, f1))]).pending =
      {(p, f1)} ∧
    (f1 ≠ f2 →
      (runEvents delay initState [(t1, (p, f1)), (t2, (p, f2))]).pending.card
        = 2) := by
  have hnle : ¬ (t1 + delay ≤ t2) := not_le.mpr hq
  have hrun : ∀ g, recognized (p, g) →
      runEvents delay initState [(t1, (p, f1)), (t2, (p, g))] =
        ⟨insert (p, g) {(p, f1)}, some (t2 + delay), []⟩ := by
    intro g hg
    simp [runEvents, stepEvent, initState, fireDue, add_file, hrec, hg, hnle]
  have hpend : insert (p, f1) ({(p, f1)} : Finset Request) = {(p, f1)} :=
    Finset.insert_eq_self.mpr (Finset.mem_singleton_self _)
  refine ⟨?_, ?_, ?_⟩
  · unfold batches
    rw [hrun f1 hrec]
    simp [flush, fireDue, hpend]
  · rw [hrun f1 hrec]
    exact hpend
  · intro hne12
    rw [hrun f2 hrec2]
    have hnm : (p, f2) ∉ ({(p, f1)} : Finset Request) := by
      simp only [Finset.mem_singleton]
      intro h
      exact hne12 ((congrArg Prod.snd h).symm)
    rw [Finset.card_insert_of_not_mem hnm, Finset.card_singleton]

/-- C6 witness: two enqueues of `a.png` with no format, 50ms apart with a
100ms window, leave one entry and yield one singleton batch; `a.png` with
formats `none` and `gif` leave two entries. -/
theorem C6_dedup_witness :
    batches 100 [(0, (⟨"a", ".png"⟩, none)), (50, (⟨"a", ".png"⟩, none))] =
      [{(⟨"a", ".png"⟩, none)}] ∧
    (runEvents 100 initState
      [(0, (⟨"a", ".png"⟩, none)), (50, (⟨"a", ".png"⟩, some "gif"))]).pending.card
      = 2 := by
  have h := C6_dedup 100 0 50 ⟨"a", ".png"⟩ none (some "gif")
    (by decide) (by decide) (by decide) (by decide)
  exact ⟨h.1, h.2.2 (by decide)⟩

/-- `classify` returns `none` exactly on extensions outside
`supported_formats` (the `add_file` guard). -/
theorem classify_none_iff (p : FsPath) :
    classify p = none ↔ lowerStr p.suffix ∉ supported_formats := by
  unfold classify supported_formats
  by_cases h1 : lowerStr p.suffix ∈ image_formats <;>
    by_cases h2 : lowerStr p.suffix ∈ audio_formats <;>
      by_cases h3 : lowerStr p.suffix ∈ video_formats <;>
        simp [h1, h2, h3, List.mem_append]

/-- C10: calling `convert_file` on a path of no recognized class with no
explicit output format (Python `None`) hits the `AttributeError` from
`None.lower()` before any class branch is reached.  (An explicit empty
string is not such a case: it stays `""` through the default-filling step,
survives `.lower()`, and dies one line later in `with_suffix('.')` with a
`ValueError` — also before any class branch.)  Consequently the dedicated
unsupported-input-format branch is reachable only when an explicit non-empty
output format is supplied; and through the public enqueue path this cannot
arise because `add_file` rejects unrecognized extensions outright (state and
timer unchanged), its guard rejecting exactly the paths `classify` maps to
`none`. -/
theorem C10_unsupported_input_reachability :
    (∀ p : FsPath, classify p = none →
      convert_file p none = .attributeError) ∧
    (∀ p : FsPath, classify p = none →
      convert_file p (some "") = .invalidSuffixError) ∧
    (∀ (p : FsPath) (o : Option String) (f : String),
      convert_file p o = .unsupportedInputFormat f →
      ∃ s, o = some s ∧ s ≠ "") ∧
    (∀ (delay : ℕ) (s : SchedState) (now : ℕ) (r : Request),
      ¬ recognized r → add_file delay s now r = s) ∧
    (∀ p : FsPath, classify p = none ↔ ¬ recognized (p, none)) := by
  have hmem : ∀ p : FsPath, classify p = none →
      lowerStr p.suffix ∉ image_formats ∧ lowerStr p.suffix ∉ audio_formats ∧
      lowerStr p.suffix ∉ video_formats := by
    intro p hcls
    have h1 : lowerStr p.suffix ∉ image_formats := by
      intro h; simp [classify, h] at hcls
    have h2 : lowerStr p.suffix ∉ audio_formats := by
      intro h; simp [classify, h1, h] at hcls
    have h3 : lowerStr p.suffix ∉ video_formats := by
      intro h; simp [classify, h1, h2, h] at hcls
    exact ⟨h1, h2, h3⟩
  have hemp : lowerStr "" = "" := by decide
  refine ⟨?_, ?_, ?_, ?_, ?_⟩
  · intro p hcls
    obtain ⟨h1, h2, h3⟩ := hmem p hcls
    have hfd : fill_default_format p none = none := by
      simp [fill_default_format, h1, h2, h3]
    simp [convert_file, hfd]
  · intro p hcls
    obtain ⟨h1, h2, h3⟩ := hmem p hcls
    have hfd : fill_default_format p (some "") = some "" := by
      simp [fill_default_format, h1, h2, h3]
    simp [convert_file, hfd, hemp]
  · intro p o f h
    rcases o with _ | s
    · exfalso
      by_cases h1 : lowerStr p.suffix ∈ image_formats
      · have hfd : fill_default_format p none = some default_format := by
          simp [fill_default_format, h1]
        simp only [convert_file, hfd] at h
        split_ifs at h
      · by_cases h2 : lowerStr p.suffix ∈ audio_formats
        · have hfd : fill_default_format p none = some default_audio_format := by
            simp [fill_default_format, h1, h2]
          simp only [convert_file, hfd] at h
          split_ifs at h
        · by_cases h3 : lowerStr p.suffix ∈ video_formats
          · have hfd : fill_default_format p none = some default_video_format := by
              simp [fill_default_format, h1, h2, h3]
            simp only [convert_file, hfd] at h
            split_ifs at h
          · have hfd : fill_default_format p none = none := by
              simp [fill_default_format, h1, h2, h3]
            simp [convert_file, hfd] at h
    · by_cases hs : s = ""
      · exfalso
        subst hs
        by_cases h1 : lowerStr p.suffix ∈ image_formats
        · have hfd : fill_default_format p (some "") = some default_format := by
            simp [fill_default_format, h1]
          simp only [convert_file, hfd] at h
          split_ifs at h
        · by_cases h2 : lowerStr p.suffix ∈ audio_formats
          · have hfd : fill_default_format p (some "") =
                some default_audio_format := by
              simp [fill_default_format, h1, h2]
            simp only [convert_file, hfd] at h
            split_ifs at h
          · by_cases h3 : lowerStr p.suffix ∈ video_formats
            · have hfd : fill_default_format p (some "") =
                  some default_video_format := by
                simp [fill_default_format, h1, h2, h3]
              simp only [convert_file, hfd] at h
              split_ifs at h
            · have hfd : fill_default_format p (some "") = some "" := by
                simp [fill_default_format, h1, h2, h3]
              simp [convert_file, hfd, hemp] at h
      · exact ⟨s, rfl, hs⟩
  · intro delay s now r hrej
    simp [add_file, hrej]
  · intro p
    rw [classify_none_iff]
    rfl

/-- C10 witness: `doc.txt` with no format raises `AttributeError`, while
with the explicit empty string it raises the `with_suffix` `ValueError`
instead; an explicit non-empty format is recovered from an
unsupported-input outcome; and `add_file` on `doc.txt` leaves the scheduler
state unchanged. -/
theorem C10_witness :
    convert_file ⟨"doc", ".txt"⟩ none = .attributeError ∧
    convert_file ⟨"doc", ".txt"⟩ (some "") = .invalidSuffixError ∧
    (∃ s, (some "png" : Option String) = some s ∧ s ≠ "") ∧
    add_file 100 initState 0 (⟨"doc", ".txt"⟩, none) = initState := by
  refine ⟨?_, ?_, ?_, ?_⟩
  · exact C10_unsupported_input_reachability.1 ⟨"doc", ".txt"⟩ (by decide)
  · exact C10_unsupported_input_reachability.2.1 ⟨"doc", ".txt"⟩ (by decide)
  · exact C10_unsupported_input_reachability.2.2.1 ⟨"doc", ".txt"⟩
      (some "png") "txt" (by decide)
  · exact C10_unsupported_input_reachability.2.2.2.1 100 initState 0
      (⟨"doc", ".txt"⟩, none) (by decide)

/-- Once the lock is held, a run of processed items followed by the final
release keeps every item under the lock. -/
theorem heldDuring_processItems (l : List Request) :
    heldDuring true (l.map LockEvent.processItem ++ [LockEvent.release]) =
      true := by
  induction l with
  | nil => rfl
  | cons x xs ih => simpa [heldDuring] using ih

/-- C2 counterexample: with one pending item, `process_batch` does NOT
release the scheduler lock before processing the captured batch — in its
trace the item is processed strictly before the release (and under the held
lock). -/
theorem C2_counterexample :
    releasedBeforeProcessing
      (process_batch_trace [(⟨"a", ".png"⟩, none)]).1 = false ∧
    processedUnderLock
      (process_batch_trace [(⟨"a", ".png"⟩, none)]).1 = true := by
  decide

/-- C2 (amended): when the batch fires with a non-empty pending set,
`process_batch` copies and clears the pending set under the scheduler lock
(the snapshot) but holds the lock for the entire processing pass — every
captured item is processed under the lock and the release comes only after
the last item — and it leaves an empty pending set behind, so an enqueue
arriving during the pass blocks on the lock until the pass completes and
then accumulates into the fresh, empty pending set without mutating the
captured batch. -/
theorem C2_lock_held_through_pass (pending : List Request)
    (hne : pending ≠ []) :
    process_batch_trace pending =
      ([LockEvent.acquire, LockEvent.snapshot pending] ++
        pending.map LockEvent.processItem ++ [LockEvent.release], []) ∧
    releasedBeforeProcessing (process_batch_trace pending).1 = false ∧
    processedUnderLock (process_batch_trace pending).1 = true := by
  obtain ⟨x, xs, rfl⟩ := List.exists_cons_of_ne_nil hne
  refine ⟨by simp [process_batch_trace], ?_, ?_⟩
  · simp [process_batch_trace, releasedBeforeProcessing]
  · simp only [process_batch_trace, if_neg (List.cons_ne_nil x xs),
      processedUnderLock, List.cons_append, List.nil_append, List.map_cons,
      heldDuring]
    simpa [heldDuring] using heldDuring_processItems xs

/-- C2 witness: the amended fact at the singleton batch `[a.png]`. -/
theorem C2_lock_held_through_pass_witness :
    process_batch_trace [(⟨"a", ".png"⟩, none)] =
      ([LockEvent.acquire, LockEvent.snapshot [(⟨"a", ".png"⟩, none)],
        LockEvent.processItem (⟨"a", ".png"⟩, none), LockEvent.release],
       []) ∧
    processedUnderLock
      (process_batch_trace [(⟨"a", ".png"⟩, none)]).1 = true := by
  have h := C2_lock_held_through_pass [(⟨"a", ".png"⟩, none)] (by simp)
  exact ⟨by rw [h.1]; rfl, h.2.2⟩

/-- Quiet-window run: starting with an armed timer whose deadline lies beyond
the first event, a trace in which every event lands inside the window opened
by its predecessor never fires; it only accumulates the requests and keeps
re-arming the timer. -/
theorem run_quiet (delay : ℕ) :
    ∀ (events : List (ℕ × Request)) (P : Finset Request)
      (F : List (Finset Request)) (d : ℕ),
    (∀ e ∈ events, recognized e.2) →
    List.Chain' (fun a b : ℕ × Request => a.1 < b.1 ∧ b.1 < a.1 + delay)
      events →
    (∀ e ∈ events.head?, e.1 < d) →
    ∃ d2, runEvents delay ⟨P, some d, F⟩ events =
      ⟨P ∪ (events.map Prod.snd).toFinset, some d2, F⟩ := by
  intro events
  induction events with
  | nil =>
    intro P F d _ _ _
    exact ⟨d, by simp [runEvents]⟩
  | cons e rest ih =>
    intro P F d hrec hchain hhead
    obtain ⟨t, r⟩ := e
    have ht : t < d := hhead (t, r) (by simp)
    rw [List.chain'_cons'] at hchain
    obtain ⟨hrel, hchain2⟩ := hchain
    have hstep : stepEvent delay ⟨P, some d, F⟩ (t, r) =
        ⟨insert r P, some (t + delay), F⟩ := by
      simp [stepEvent, fireDue, add_file, not_le.mpr ht,
        hrec (t, r) (by simp)]
    obtain ⟨d2, hrun⟩ := ih (insert r P) F (t + delay)
      (fun e2 he2 => hrec e2 (List.mem_cons_of_mem _ he2)) hchain2
      (fun e2 he2 => (hrel e2 he2).2)
    refine ⟨d2, ?_⟩
    simp only [runEvents, List.foldl_cons] at hrun ⊢
    rw [hstep, hrun]
    congr 1
    simp [Finset.insert_union, Finset.union_insert]

/-- Spaced run: starting with an armed timer and a non-empty pending set,
a trace in which every event arrives strictly after the previous window
closed fires one batch per quiet period: the starting batch, then one
singleton batch per event. -/
theorem run_spaced (delay : ℕ) :
    ∀ (events : List (ℕ × Request)) (P : Finset Request)
      (F : List (Finset Request)) (d : ℕ),
    (∀ e ∈ events, recognized e.2) →
    List.Chain' (fun a b : ℕ × Request => a.1 + delay < b.1) events →
    (∀ e ∈ events.head?, d < e.1) →
    P ≠ ∅ →
    (flush (runEvents delay ⟨P, some d, F⟩ events)).fired =
      F ++ [P] ++ events.map (fun e => ({e.2} : Finset Request)) := by
  intro events
  induction events with
  | nil =>
    intro P F d _ _ _ hP
    simp [runEvents, flush, fireDue, hP]
  | cons e rest ih =>
    intro P F d hrec hchain hhead hP
    obtain ⟨t, r⟩ := e
    have ht : d < t := hhead (t, r) (by simp)
    rw [List.chain'_cons'] at hchain
    obtain ⟨hrel, hchain2⟩ := hchain
    have hstep : stepEvent delay ⟨P, some d, F⟩ (t, r) =
        ⟨{r}, some (t + delay), F ++ [P]⟩ := by
      simp [stepEvent, fireDue, add_file, le_of_lt ht, hP,
        hrec (t, r) (by simp)]
    have hrest := ih {r} (F ++ [P]) (t + delay)
      (fun e2 he2 => hrec e2 (List.mem_cons_of_mem _ he2)) hchain2
      (fun e2 he2 => hrel e2 he2) (Finset.singleton_ne_empty r)
    simp only [runEvents, List.foldl_cons] at hrest ⊢
    rw [hstep, hrest]
    simp

/-- C1: the debounce contract.  With every enqueued extension recognized:
calls that each arrive strictly inside the window re-armed by their
predecessor coalesce into exactly one fired batch holding all the
deduplicated requests; calls spaced strictly beyond the window fire one
singleton batch per call; each recognized `add_file` cancels the outstanding
timer and re-arms it to fire `delay` after the call (the model of
`batch_timer.cancel()` followed by a fresh `Timer`); and the constructor's
default `batch_wait_time` of 0.1 seconds is 100 milliseconds. -/
theorem C1_debounce (delay : ℕ) (events : List (ℕ × Request))
    (hne : events ≠ [])
    (hrec : ∀ e ∈ events, recognized e.2) :
    (List.Chain' (fun a b : ℕ × Request => a.1 < b.1 ∧ b.1 < a.1 + delay)
        events →
      batches delay events = [(events.map Prod.snd).toFinset]) ∧
    (List.Chain' (fun a b : ℕ × Request => a.1 + delay < b.1) events →
      batches delay events =
        events.map (fun e => ({e.2} : Finset Request))) ∧
    (∀ (s : SchedState) (now : ℕ) (r : Request), recognized r →
      (add_file delay s now r).deadline = some (now + delay) ∧
      (add_file delay s now r).pending = insert r s.pending) ∧
    constructor_batch_wait_time * 1000 = 100 := by
  obtain ⟨⟨t, r⟩, rest, rfl⟩ := List.exists_cons_of_ne_nil hne
  have hstep0 : stepEvent delay initState (t, r) =
      ⟨{r}, some (t + delay), []⟩ := by
    simp [stepEvent, initState, fireDue, add_file, hrec (t, r) (by simp)]
  refine ⟨?_, ?_, ?_, by norm_num [constructor_batch_wait_time]⟩
  · intro hchain
    rw [List.chain'_cons'] at hchain
    obtain ⟨hrel, hchain2⟩ := hchain
    obtain ⟨d2, hrun⟩ := run_quiet delay rest {r} [] (t + delay)
      (fun e2 he2 => hrec e2 (List.mem_cons_of_mem _ he2)) hchain2
      (fun e2 he2 => (hrel e2 he2).2)
    unfold batches
    simp only [runEvents, List.foldl_cons] at hrun ⊢
    rw [hstep0, hrun]
    have hne2 : ({r} : Finset Request) ∪ (rest.map Prod.snd).toFinset ≠ ∅ := by
      rw [← Finset.insert_eq]
      exact Finset.insert_ne_empty _ _
    simp [flush, fireDue, hne2]
    exact (Finset.insert_eq _ _).symm
  · intro hchain
    rw [List.chain'_cons'] at hchain
    obtain ⟨hrel, hchain2⟩ := hchain
    have hsp := run_spaced delay rest {r} [] (t + delay)
      (fun e2 he2 => hrec e2 (List.mem_cons_of_mem _ he2)) hchain2
      (fun e2 he2 => hrel e2 he2) (Finset.singleton_ne_empty r)
    unfold batches
    simp only [runEvents, List.foldl_cons] at hsp ⊢
    rw [hstep0]
    rw [hsp]
    simp
  · intro s now r2 hr2
    exact ⟨by simp [add_file, hr2], by simp [add_file, hr2]⟩

/-- C1 witness: with the 100ms window, enqueues at 0ms and 50ms coalesce
into one two-request batch, while enqueues at 0ms and 200ms fire two
singleton batches. -/
theorem C1_debounce_witness :
    batches 100 [(0, ((⟨"a", ".png"⟩ : FsPath), (none : Option String))),
                 (50, (⟨"b", ".mp4"⟩, none))] =
      [{((⟨"a", ".png"⟩ : FsPath), (none : Option String)),
        (⟨"b", ".mp4"⟩, none)}] ∧
    batches 100 [(0, ((⟨"a", ".png"⟩ : FsPath), (none : Option String))),
                 (200, (⟨"b", ".mp4"⟩, none))] =
      [{((⟨"a", ".png"⟩ : FsPath), (none : Option String))},
       {(⟨"b", ".mp4"⟩, none)}] := by
  constructor
  · rw [(C1_debounce 100
      [(0, ((⟨"a", ".png"⟩ : FsPath), (none : Option String))),
       (50, (⟨"b", ".mp4"⟩, none))] (by decide) (by decide)).1
      (by rw [List.chain'_pair]; norm_num)]
    decide
  · rw [(C1_debounce 100
      [(0, ((⟨"a", ".png"⟩ : FsPath), (none : Option String))),
       (200, (⟨"b", ".mp4"⟩, none))] (by decide) (by decide)).2.1
      (by rw [List.chain'_pair]; norm_num)]
    rfl
